import Mathlib

/-!
Verification of the chisel fork sources: the WebSocket stream adapter
(`share/cnet`), the bidirectional pipe (`share/cio/pipe.go`), the proxy
connection pool and the tunnel session latch (`share/tunnel`), the
keepalive jitter, and the client supervisor backoff
(`client/client_connect.go`), shallowly embedded from the Go code.
Durations are modelled over `ℚ`, bytes over `Nat`.
-/

namespace Chisel

/-! ### WS-stream adapter (`share/cnet`, `wsConn`) -/

/-- Transport-level error results of a websocket read. -/
inductive WsErr where
  | closed
  | readLimitExceeded
deriving DecidableEq, Repr

/-- State of a `wsConn`: the leftover buffer `buff` and the configured
`readBufSize` (32 KB in `NewWebSocketConn`). Bytes are modelled as `Nat`. -/
structure WsConn where
  buff : List Nat
  readBufSize : Nat
deriving DecidableEq, Repr

/-- `NewWebSocketConn`: fresh adapter with empty leftover buffer and a
32 KB read buffer size. -/
def NewWebSocketConn : WsConn := { buff := [], readBufSize := 32 * 1024 }

/-- `websocket.Conn.ReadMessage` under `SetReadLimit limit`: the next
queued inbound frame is returned unless it exceeds the limit, in which
case the read fails; with no queued frame the read fails (closed). -/
def readMessage (limit : Nat) (frames : List (List Nat)) :
    Except WsErr (List Nat × List (List Nat)) :=
  match frames with
  | [] => .error .closed
  | f :: rest => if limit < f.length then .error .readLimitExceeded else .ok (f, rest)

/-- The copy section of `wsConn.Read`: copy as much of `src` as fits into
a destination of capacity `ldst`; the remainder becomes the new leftover
buffer, truncated to `readBufSize` when it is longer than that. -/
def wsCopy (c : WsConn) (src : List Nat) (ldst : Nat) (rest : List (List Nat)) :
    Except WsErr (List Nat × WsConn × List (List Nat)) :=
  if ldst < src.length then
    .ok (src.take ldst,
      { c with buff :=
          if (src.drop ldst).length ≤ c.readBufSize then src.drop ldst
          else (src.drop ldst).take c.readBufSize },
      rest)
  else
    .ok (src, { c with buff := [] }, rest)

/-- `wsConn.Read`: drain the leftover buffer when nonempty, else read one
inbound frame under the read limit; then run the copy section. Returns the
bytes copied into the destination, the new adapter state, and the frames
not yet consumed. -/
def wsConnRead (c : WsConn) (ldst : Nat) (frames : List (List Nat)) :
    Except WsErr (List Nat × WsConn × List (List Nat)) :=
  if c.buff ≠ [] then wsCopy c c.buff ldst frames
  else
    match readMessage c.readBufSize frames with
    | .error e => .error e
    | .ok (msg, rest) => wsCopy c msg ldst rest

/-- Successive `wsConn.Read` calls with destination capacities `dsts`:
returns the list of byte slices handed to the caller, the final adapter
state, and the frames not yet consumed. -/
def wsConnReads (c : WsConn) (dsts : List Nat) (frames : List (List Nat)) :
    Except WsErr (List (List Nat) × WsConn × List (List Nat)) :=
  match dsts with
  | [] => .ok ([], c, frames)
  | l :: ls =>
    match wsConnRead c l frames with
    | .error e => .error e
    | .ok (out, c1, rest) =>
      match wsConnReads c1 ls rest with
      | .error e => .error e
      | .ok (outs, c2, rest2) => .ok (out :: outs, c2, rest2)

lemma wsCopy_of_le (c : WsConn) (src : List Nat) (ldst : Nat)
    (rest : List (List Nat)) (h : src.length ≤ c.readBufSize) :
    wsCopy c src ldst rest =
      .ok (src.take ldst, { c with buff := src.drop ldst }, rest) := by
  unfold wsCopy
  by_cases hl : ldst < src.length
  · have hr : (src.drop ldst).length ≤ c.readBufSize := by
      rw [List.length_drop]; omega
    rw [if_pos hl, if_pos hr]
  · have hle : src.length ≤ ldst := by omega
    rw [if_neg hl, List.take_of_length_le hle, List.drop_eq_nil_of_le hle]

lemma wsConnRead_buff_nonempty (c : WsConn) (ldst : Nat)
    (frames : List (List Nat)) (hb : c.buff ≠ [])
    (h : c.buff.length ≤ c.readBufSize) :
    wsConnRead c ldst frames =
      .ok (c.buff.take ldst, { c with buff := c.buff.drop ldst }, frames) := by
  unfold wsConnRead
  rw [if_pos hb, wsCopy_of_le c c.buff ldst frames h]

lemma wsConnRead_buff_empty (c : WsConn) (ldst : Nat) (msg : List Nat)
    (rest : List (List Nat)) (hb : c.buff = [])
    (h : msg.length ≤ c.readBufSize) :
    wsConnRead c ldst (msg :: rest) =
      .ok (msg.take ldst, { c with buff := msg.drop ldst }, rest) := by
  unfold wsConnRead readMessage
  simp only [hb, ne_eq, not_true_eq_false, if_false, Nat.not_lt.mpr h, if_neg]
  exact wsCopy_of_le c msg ldst rest h

/-- Per-call conservation: a successful `Read` consumes a prefix `pre` of
the queued frames (empty exactly when the leftover buffer was drained) and
the bytes handed out plus the new leftover equal the old leftover plus the
consumed frames; the buffer invariant is preserved. -/
lemma wsConnRead_conserves (c : WsConn) (ldst : Nat)
    (frames : List (List Nat)) (out : List Nat) (c1 : WsConn)
    (rest : List (List Nat)) (hinv : c.buff.length ≤ c.readBufSize)
    (h : wsConnRead c ldst frames = .ok (out, c1, rest)) :
    ∃ pre, frames = pre ++ rest ∧
      out ++ c1.buff = c.buff ++ pre.flatten ∧
      c1.readBufSize = c.readBufSize ∧
      c1.buff.length ≤ c1.readBufSize := by
  by_cases hb : c.buff = []
  · match frames with
    | [] =>
      unfold wsConnRead readMessage at h
      simp [hb] at h
    | msg :: rest0 =>
      by_cases hm : c.readBufSize < msg.length
      · unfold wsConnRead readMessage at h
        simp [hb, hm] at h
      · have hle : msg.length ≤ c.readBufSize := Nat.not_lt.mp hm
        rw [wsConnRead_buff_empty c ldst msg rest0 hb hle] at h
        simp only [Except.ok.injEq, Prod.mk.injEq] at h
        obtain ⟨h1, h2, h3⟩ := h
        refine ⟨[msg], by simp [h3], ?_, by rw [← h2], ?_⟩
        · rw [← h1, ← h2]
          simp [hb, List.take_append_drop]
        · rw [← h2]
          simp only [List.length_drop]
          omega
  · rw [wsConnRead_buff_nonempty c ldst frames hb hinv] at h
    simp only [Except.ok.injEq, Prod.mk.injEq] at h
    obtain ⟨h1, h2, h3⟩ := h
    refine ⟨[], by simp [h3], ?_, by rw [← h2], ?_⟩
    · rw [← h1, ← h2]
      simp [List.take_append_drop]
    · rw [← h2]
      simp only [List.length_drop]
      omega

/-- Multi-call conservation for `wsConnReads`. -/
lemma wsConnReads_conserves :
    ∀ (dsts : List Nat) (c : WsConn) (frames : List (List Nat))
      (outs : List (List Nat)) (c2 : WsConn) (rest : List (List Nat)),
      c.buff.length ≤ c.readBufSize →
      wsConnReads c dsts frames = .ok (outs, c2, rest) →
      ∃ pre, frames = pre ++ rest ∧
        outs.flatten ++ c2.buff = c.buff ++ pre.flatten := by
  intro dsts
  induction dsts with
  | nil =>
    intro c frames outs c2 rest _ h
    unfold wsConnReads at h
    simp only [Except.ok.injEq, Prod.mk.injEq] at h
    obtain ⟨h1, h2, h3⟩ := h
    subst h1; subst h3
    exact ⟨[], by simp, by simp [← h2]⟩
  | cons l ls ih =>
    intro c frames outs c2 rest hinv h
    unfold wsConnReads at h
    match h1 : wsConnRead c l frames with
    | .error e => rw [h1] at h; exact absurd h (by simp)
    | .ok (out, c1, rest1) =>
      rw [h1] at h
      dsimp only at h
      match h2 : wsConnReads c1 ls rest1 with
      | .error e => rw [h2] at h; exact absurd h (by simp)
      | .ok (outs1, c3, rest3) =>
        rw [h2] at h
        dsimp only at h
        simp only [Except.ok.injEq, Prod.mk.injEq] at h
        obtain ⟨ho, hc, hr⟩ := h
        obtain ⟨pre1, hp1, he1, hsz, hinv1⟩ :=
          wsConnRead_conserves c l frames out c1 rest1 hinv h1
        obtain ⟨pre2, hp2, he2⟩ :=
          ih c1 rest1 outs1 c3 rest3 hinv1 h2
        refine ⟨pre1 ++ pre2, ?_, ?_⟩
        · rw [hp1, hp2, ← hr, List.append_assoc]
        · rw [← ho, ← hc]
          calc (out :: outs1).flatten ++ c3.buff
              = out ++ (outs1.flatten ++ c3.buff) := by simp
            _ = out ++ (c1.buff ++ pre2.flatten) := by rw [he2]
            _ = (out ++ c1.buff) ++ pre2.flatten := by rw [List.append_assoc]
            _ = (c.buff ++ pre1.flatten) ++ pre2.flatten := by rw [he1]
            _ = c.buff ++ (pre1 ++ pre2).flatten := by
                rw [List.flatten_append, List.append_assoc]

/-- C1: a `Read` on the WS-stream adapter drains any leftover bytes first
(consuming no frame); otherwise it reads exactly one inbound frame,
returns as many bytes as fit, and retains the entire remainder in the
internal buffer; across any successful sequence of `Read` calls, the
concatenation of the bytes handed out (plus the final leftover) equals the
initial leftover plus the concatenation of the frames consumed, so no byte
of any received frame is dropped. -/
theorem wsConn_read_no_byte_dropped (c : WsConn)
    (hinv : c.buff.length ≤ c.readBufSize) :
    (∀ ldst frames, c.buff ≠ [] →
      wsConnRead c ldst frames =
        .ok (c.buff.take ldst, { c with buff := c.buff.drop ldst }, frames)) ∧
    (∀ ldst msg rest, c.buff = [] → msg.length ≤ c.readBufSize →
      wsConnRead c ldst (msg :: rest) =
        .ok (msg.take ldst, { c with buff := msg.drop ldst }, rest)) ∧
    (∀ dsts frames outs c2 rest,
      wsConnReads c dsts frames = .ok (outs, c2, rest) →
      ∃ pre, frames = pre ++ rest ∧
        outs.flatten ++ c2.buff = c.buff ++ pre.flatten) := by
  refine ⟨?_, ?_, ?_⟩
  · intro ldst frames hb
    exact wsConnRead_buff_nonempty c ldst frames hb hinv
  · intro ldst msg rest hb h
    exact wsConnRead_buff_empty c ldst msg rest hb h
  · intro dsts frames outs c2 rest h
    exact wsConnReads_conserves dsts c frames outs c2 rest hinv h

/-- Witness for C1: a fresh adapter reading the frames `[1,2]` and `[3]`
through destinations of sizes 1 and 5 hands out `[1]` then `[2]`, keeping
every byte. -/
theorem wsConn_read_no_byte_dropped_witness :
    ∃ pre, ([[1, 2], [3]] : List (List Nat)) = pre ++ [[3]] ∧
      ([[1], [2]] : List (List Nat)).flatten ++ ([] : List Nat) =
        ([] : List Nat) ++ pre.flatten :=
  (wsConn_read_no_byte_dropped ⟨[], 4⟩ (by decide)).2.2
    [1, 5] [[1, 2], [3]] [[1], [2]] ⟨[], 4⟩ [[3]] rfl

/-! ### Bidirectional pipe (`share/cio/pipe.go`) -/

/-- io error values seen by `chunkedCopy`: end of file, short write, or any
other error (tagged by a code). -/
inductive IOErr where
  | eof
  | shortWrite
  | other (code : Nat)
deriving DecidableEq, Repr

/-- `chunkedCopy dst src`: one copy direction. The reader is modelled by the
sequence of results its successive `Read` calls return (`nr`, `er`), the
writer by the sequence of results its successive `Write` calls return
(`nw`, `ew`). Returns the total byte count and the error result, or `none`
when the modelled endpoint has no further event (the Go call would block).
Chunk sizing and inter-chunk delays do not affect the totals and are not
modelled. -/
def chunkedCopy : List (Nat × Option IOErr) → List (Nat × Option IOErr) → Nat →
    Option (Nat × Option IOErr)
  | [], _, _ => none
  | (nr, er) :: rs, writeRes, total =>
    if 0 < nr then
      match writeRes with
      | [] => none
      | (nw0, ew0) :: ws =>
        -- Go: if nw < 0 || nr < nw then nw = 0 and a nil ew becomes ErrShortWrite
        let nw : Nat := if nr < nw0 then 0 else nw0
        let ew : Option IOErr :=
          if nr < nw0 ∧ ew0 = none then some IOErr.shortWrite else ew0
        match ew with
        | some e => some (total + nw, some e)
        | none =>
          if nr ≠ nw then some (total + nw, some IOErr.shortWrite)
          else
            match er with
            | some e =>
              if e = IOErr.eof then some (total + nw, none)
              else some (total + nw, some e)
            | none => chunkedCopy rs ws (total + nw)
    else
      match er with
      | some e => if e = IOErr.eof then some (total, none) else some (total, some e)
      | none => chunkedCopy rs writeRes total

/-- One endpoint of `Pipe`, a readwritecloser: the modelled outcomes of its
`Read` calls and of its `Write` calls. -/
structure Endpoint where
  readRes : List (Nat × Option IOErr)
  writeRes : List (Nat × Option IOErr)

/-- `Pipe src dst` data result: the first goroutine computes
`received, _ = chunkedCopy(src, dst, rng1)` (writer `src`, reader `dst`)
and the second `sent, _ = chunkedCopy(dst, src, rng2)` (writer `dst`,
reader `src`); both error results are discarded and `(sent, received)` is
returned once both have finished. -/
def Pipe (src dst : Endpoint) : Option (Nat × Nat) :=
  match chunkedCopy dst.readRes src.writeRes 0, chunkedCopy src.readRes dst.writeRes 0 with
  | some rRes, some sRes => some (sRes.1, rRes.1)
  | _, _ => none

/-- Scheduler-level state of one `Pipe` call: whether each copy goroutine
has finished, the `sync.Once` latch, how many times each endpoint has been
closed, and whether `Pipe` has returned (past `wg.Wait`). -/
structure PipeSt where
  recvDone : Bool
  sentDone : Bool
  onceUsed : Bool
  srcCloses : Nat
  dstCloses : Nat
  returned : Bool
deriving DecidableEq, Repr

def pipeInit : PipeSt :=
  { recvDone := false, sentDone := false, onceUsed := false,
    srcCloses := 0, dstCloses := 0, returned := false }

/-- Scheduler events inside one `Pipe` call. -/
inductive PipeEv where
  | finishRecv
  | finishSent
  | ret
deriving DecidableEq, Repr

/-- One scheduler step: a copy goroutine that finishes runs `o.Do(close)`,
whose body `close` runs `src.Close(); dst.Close()` only when the once-latch
is unused, then `wg.Done()`; `Pipe` returns only when `wg.Wait()` has seen
both goroutines done. -/
def pipeStep (s : PipeSt) (e : PipeEv) : Option PipeSt :=
  match e with
  | .finishRecv =>
    if s.recvDone then none
    else if s.onceUsed then some { s with recvDone := true }
    else some ⟨true, s.sentDone, true, s.srcCloses + 1, s.dstCloses + 1, s.returned⟩
  | .finishSent =>
    if s.sentDone then none
    else if s.onceUsed then some { s with sentDone := true }
    else some ⟨s.recvDone, true, true, s.srcCloses + 1, s.dstCloses + 1, s.returned⟩
  | .ret =>
    if s.recvDone ∧ s.sentDone ∧ s.returned = false
    then some { s with returned := true } else none

/-- Run a sequence of scheduler events from a starting state. -/
def pipeRun : PipeSt → List PipeEv → Option PipeSt
  | s, [] => some s
  | s, e :: es =>
    match pipeStep s e with
    | none => none
    | some s1 => pipeRun s1 es

/-- Inductive invariant of the `Pipe` scheduler states. -/
def pipeInv (s : PipeSt) : Prop :=
  s.srcCloses = (if s.onceUsed then 1 else 0) ∧
  s.dstCloses = (if s.onceUsed then 1 else 0) ∧
  (s.onceUsed ↔ (s.recvDone ∨ s.sentDone)) ∧
  (s.returned = true → s.recvDone = true ∧ s.sentDone = true)

lemma pipeInv_init : pipeInv pipeInit := by
  simp [pipeInv, pipeInit]

lemma pipeInv_step (s : PipeSt) (e : PipeEv) (s1 : PipeSt)
    (hinv : pipeInv s) (h : pipeStep s e = some s1) : pipeInv s1 := by
  obtain ⟨h1, h2, h3, h4⟩ := hinv
  cases e with
  | finishRecv =>
    simp only [pipeStep] at h
    by_cases hr : s.recvDone = true
    · rw [if_pos hr] at h
      exact absurd h (by simp)
    · rw [if_neg hr] at h
      by_cases ho : s.onceUsed = true
      · rw [if_pos ho, Option.some.injEq] at h
        subst h
        refine ⟨h1, h2, by simp [ho], ?_⟩
        intro hret
        exact ⟨rfl, (h4 hret).2⟩
      · rw [if_neg ho, Option.some.injEq] at h
        subst h
        refine ⟨?_, ?_, by simp, ?_⟩
        · show s.srcCloses + 1 = _
          rw [h1, if_neg ho]
          simp
        · show s.dstCloses + 1 = _
          rw [h2, if_neg ho]
          simp
        · intro hret
          exact absurd (h4 hret).1 hr
  | finishSent =>
    simp only [pipeStep] at h
    by_cases hr : s.sentDone = true
    · rw [if_pos hr] at h
      exact absurd h (by simp)
    · rw [if_neg hr] at h
      by_cases ho : s.onceUsed = true
      · rw [if_pos ho, Option.some.injEq] at h
        subst h
        refine ⟨h1, h2, by simp [ho], ?_⟩
        intro hret
        exact ⟨(h4 hret).1, rfl⟩
      · rw [if_neg ho, Option.some.injEq] at h
        subst h
        refine ⟨?_, ?_, by simp, ?_⟩
        · show s.srcCloses + 1 = _
          rw [h1, if_neg ho]
          simp
        · show s.dstCloses + 1 = _
          rw [h2, if_neg ho]
          simp
        · intro hret
          exact absurd (h4 hret).2 hr
  | ret =>
    simp only [pipeStep] at h
    by_cases hc : s.recvDone = true ∧ s.sentDone = true ∧ s.returned = false
    · rw [if_pos hc, Option.some.injEq] at h
      subst h
      exact ⟨h1, h2, h3, fun _ => ⟨hc.1, hc.2.1⟩⟩
    · rw [if_neg hc] at h
      exact absurd h (by simp)

lemma pipeRun_inv :
    ∀ (evs : List PipeEv) (s s1 : PipeSt), pipeInv s →
      pipeRun s evs = some s1 → pipeInv s1 := by
  intro evs
  induction evs with
  | nil =>
    intro s s1 hinv h
    unfold pipeRun at h
    simp at h
    subst h
    exact hinv
  | cons e es ih =>
    intro s s1 hinv h
    unfold pipeRun at h
    match hstep : pipeStep s e with
    | none => rw [hstep] at h; exact absurd h (by simp)
    | some s2 =>
      rw [hstep] at h
      exact ih s2 s1 (pipeInv_step s e s2 hinv hstep) h

/-- C4: in every schedule of one `Pipe` call, each endpoint is closed at
most once; as soon as either copy direction has finished, both endpoints
have been closed; `Pipe` returns only after both directions have finished;
and when both copies complete with totals `s2` (src-to-dst) and `r`
(dst-to-src), the call returns exactly `(s2, r)`. -/
theorem pipe_close_once_and_counts :
    (∀ (evs : List PipeEv) (s : PipeSt), pipeRun pipeInit evs = some s →
      s.srcCloses ≤ 1 ∧ s.dstCloses ≤ 1 ∧
      ((s.recvDone ∨ s.sentDone) → s.srcCloses = 1 ∧ s.dstCloses = 1) ∧
      (s.returned = true → s.recvDone = true ∧ s.sentDone = true)) ∧
    (∀ (src dst : Endpoint) (r s2 : Nat) (e1 e2 : Option IOErr),
      chunkedCopy dst.readRes src.writeRes 0 = some (r, e1) →
      chunkedCopy src.readRes dst.writeRes 0 = some (s2, e2) →
      Pipe src dst = some (s2, r)) := by
  constructor
  · intro evs s h
    obtain ⟨h1, h2, h3, h4⟩ := pipeRun_inv evs pipeInit s pipeInv_init h
    refine ⟨by rw [h1]; split <;> omega, by rw [h2]; split <;> omega, ?_, h4⟩
    intro hdone
    have ho : s.onceUsed := h3.mpr hdone
    rw [h1, h2, if_pos ho]
    exact ⟨rfl, rfl⟩
  · intro src dst r s2 e1 e2 hr hs
    unfold Pipe
    rw [hr, hs]

/-- Witness for C4: the schedule where the dst-to-src copy finishes first,
then the src-to-dst copy, then `Pipe` returns, closes each endpoint exactly
once; with a reader delivering 3 then eof bytes against an accepting
writer, `Pipe` returns the totals `(3, 0)`. -/
theorem pipe_close_once_and_counts_witness :
    ((⟨true, true, true, 1, 1, true⟩ : PipeSt).srcCloses ≤ 1 ∧
     (⟨true, true, true, 1, 1, true⟩ : PipeSt).dstCloses ≤ 1 ∧
     (((⟨true, true, true, 1, 1, true⟩ : PipeSt).recvDone ∨
       (⟨true, true, true, 1, 1, true⟩ : PipeSt).sentDone) →
       (⟨true, true, true, 1, 1, true⟩ : PipeSt).srcCloses = 1 ∧
       (⟨true, true, true, 1, 1, true⟩ : PipeSt).dstCloses = 1) ∧
     ((⟨true, true, true, 1, 1, true⟩ : PipeSt).returned = true →
       (⟨true, true, true, 1, 1, true⟩ : PipeSt).recvDone = true ∧
       (⟨true, true, true, 1, 1, true⟩ : PipeSt).sentDone = true)) ∧
    Pipe ⟨[(3, some IOErr.eof)], []⟩ ⟨[(0, some IOErr.eof)], [(3, none)]⟩ =
      some (3, 0) :=
  ⟨pipe_close_once_and_counts.1 [.finishRecv, .finishSent, .ret]
      ⟨true, true, true, 1, 1, true⟩ rfl,
   pipe_close_once_and_counts.2 ⟨[(3, some IOErr.eof)], []⟩
      ⟨[(0, some IOErr.eof)], [(3, none)]⟩ 0 3 none none rfl rfl⟩

/-- C9: `Pipe` discards the per-direction copy errors: whenever both
copies finish, it returns just the two byte counts, whatever the error
results were, so two runs whose copies produce the same counts but
different errors are indistinguishable to the caller. -/
theorem pipe_discards_copy_errors
    (src dst src' dst' : Endpoint) (r s2 : Nat) (e1 e2 e1' e2' : Option IOErr)
    (hr : chunkedCopy dst.readRes src.writeRes 0 = some (r, e1))
    (hs : chunkedCopy src.readRes dst.writeRes 0 = some (s2, e2))
    (hr' : chunkedCopy dst'.readRes src'.writeRes 0 = some (r, e1'))
    (hs' : chunkedCopy src'.readRes dst'.writeRes 0 = some (s2, e2')) :
    Pipe src dst = some (s2, r) ∧ Pipe src' dst' = Pipe src dst := by
  unfold Pipe
  rw [hr, hs, hr', hs']
  exact ⟨rfl, rfl⟩

/-- Witness for C9: a direction failing with a non-eof error and a
direction ending at eof yield the same `Pipe` result as two clean
directions with the same byte totals. -/
theorem pipe_discards_copy_errors_witness :
    Pipe ⟨[(2, none), (0, some (IOErr.other 7))], []⟩
        ⟨[(0, some IOErr.eof)], [(2, none)]⟩ = some (2, 0) ∧
      Pipe ⟨[(2, some IOErr.eof)], []⟩ ⟨[(0, some IOErr.eof)], [(2, none)]⟩ =
        Pipe ⟨[(2, none), (0, some (IOErr.other 7))], []⟩
          ⟨[(0, some IOErr.eof)], [(2, none)]⟩ :=
  pipe_discards_copy_errors
    ⟨[(2, none), (0, some (IOErr.other 7))], []⟩ ⟨[(0, some IOErr.eof)], [(2, none)]⟩
    ⟨[(2, some IOErr.eof)], []⟩ ⟨[(0, some IOErr.eof)], [(2, none)]⟩
    0 2 none (some (IOErr.other 7)) none none rfl rfl rfl rfl

/-! ### Proxy connection pool (`share/tunnel`, `Proxy.runTCP` and
`Proxy.connectionWorker`) -/

/-- Capacity of the `connPool` channel (`make(chan struct{}, 100)`),
documented in `NewProxy` as the maximum number of concurrent
connections. -/
def maxConns : Nat := 100

/-- State of one proxy under `runTCP`: `pool` is the number of tokens
currently buffered in the `connPool` channel, `inFlight` the number of
`pipeRemote` calls started and not yet returned, `rejected` the number of
accepted local connections closed because the channel was full. -/
structure ProxySt where
  pool : Nat
  inFlight : Nat
  rejected : Nat
deriving DecidableEq, Repr

def proxyInit : ProxySt := ⟨0, 0, 0⟩

/-- Scheduler events of the accept loop, the ten `connectionWorker`
goroutines started by `runTCP`, and the `pipeRemote` goroutines. -/
inductive ProxyEv where
  | accept
  | workerTake
  | pipeDone
deriving DecidableEq, Repr

/-- One scheduler step.
`accept`: the select in `runTCP` sends a token into `connPool` and spawns
`go p.pipeRemote(...)` when the channel has room, and otherwise takes the
default branch, closing the local connection.
`workerTake`: a `connectionWorker` goroutine receives a token from
`connPool` (its loop body does nothing else with it).
`pipeDone`: a `pipeRemote` call returns; its deferred release is a
non-blocking receive from `connPool`. -/
def proxyStep (s : ProxySt) (e : ProxyEv) : Option ProxySt :=
  match e with
  | .accept =>
    if s.pool < maxConns then
      some { s with pool := s.pool + 1, inFlight := s.inFlight + 1 }
    else
      some { s with rejected := s.rejected + 1 }
  | .workerTake =>
    if 0 < s.pool then some { s with pool := s.pool - 1 } else none
  | .pipeDone =>
    if 0 < s.inFlight then
      some { s with inFlight := s.inFlight - 1, pool := s.pool - 1 }
    else none

/-- Run a sequence of proxy scheduler events from a starting state. -/
def proxyRun : ProxySt → List ProxyEv → Option ProxySt
  | s, [] => some s
  | s, e :: es =>
    match proxyStep s e with
    | none => none
    | some s1 => proxyRun s1 es

/-- The schedule refuting the connection cap: 100 accepts fill the channel,
one `connectionWorker` goroutine receives a token, and the next accept is
admitted again while no `pipeRemote` has returned. -/
def proxyCapBugTrace : List ProxyEv :=
  List.replicate 100 ProxyEv.accept ++ [ProxyEv.workerTake, ProxyEv.accept]

set_option maxRecDepth 10000 in
/-- C2 (failing run): under the schedule `proxyCapBugTrace`, 101 forwarded
connections are in flight at once — above the documented cap of 100 — and
none was rejected, because the `connectionWorker` goroutines drain the very
tokens that are supposed to count in-flight connections. -/
theorem proxy_cap_exceeded :
    proxyRun proxyInit proxyCapBugTrace = some ⟨100, 101, 0⟩ ∧
      maxConns < 101 := by
  constructor
  · rfl
  · decide

/-! ### Tunnel session latch (`share/tunnel`, `Tunnel.BindSSH` and
`Tunnel.getSSH`) -/

/-- Tunnel session state: `activeConn` is the stored ssh connection
(modelled by an id), `latch` the `activatingConn` waitGroup counter;
`getSSH` waiters block while `latch` is nonzero. -/
structure TunnelSt where
  activeConn : Option Nat
  latch : Nat
deriving DecidableEq, Repr

/-- `New`: no stored session and `activatingConn.Add(1)`. -/
def tunnelNew : TunnelSt := ⟨none, 1⟩

/-- The entry section of `BindSSH`: with a session already stored it hits
`panic("double bind ssh")`, modelled as `none`; otherwise it stores the
session and runs `activatingConn.Done()`. -/
def bindSSHEntry (st : TunnelSt) (c : Nat) : Option TunnelSt :=
  match st.activeConn with
  | some _ => none
  | none => some ⟨some c, st.latch - 1⟩

/-- The exit section of `BindSSH`, run after `c.Wait()` returns: re-arm
the latch (`activatingConn.Add(1)`) and clear the stored session. -/
def bindSSHExit (st : TunnelSt) : TunnelSt := ⟨none, st.latch + 1⟩

/-- Result of a `getSSH` call at one state: either it returns at once, or
it blocks on the latch (unblocking only on a later bind, the bounded 35 s
wait, or cancellation). -/
inductive GetSSHRes where
  | immediate (c : Option Nat)
  | blocked
deriving DecidableEq, Repr

/-- `getSSH`: an already-cancelled context returns `nil` before the
active-session lookup; else the stored session, when present, is returned;
else the caller waits on the `activatingConn` latch. -/
def getSSH (st : TunnelSt) (ctxDone : Bool) : GetSSHRes :=
  if ctxDone then .immediate none
  else
    match st.activeConn with
    | some c => .immediate (some c)
    | none => if st.latch = 0 then .immediate none else .blocked

/-- C3: `BindSSH` aborts fatally when a session is already stored; after
its entry section the bound session is returned immediately to any
non-cancelled `getSSH` caller; and after its exit section the stored
session is cleared and the latch is re-armed, so a fresh `getSSH` caller
blocks instead of receiving the old session. -/
theorem bindSSH_latch_rearm (st : TunnelSt) (c : Nat) :
    (st.activeConn ≠ none → bindSSHEntry st c = none) ∧
    (∀ st1, bindSSHEntry st c = some st1 →
      getSSH st1 false = .immediate (some c) ∧
      (bindSSHExit st1).activeConn = none ∧
      0 < (bindSSHExit st1).latch ∧
      getSSH (bindSSHExit st1) false = .blocked) := by
  constructor
  · intro hne
    unfold bindSSHEntry
    match hc : st.activeConn with
    | some _ => rfl
    | none => exact absurd hc hne
  · intro st1 h
    unfold bindSSHEntry at h
    match hc : st.activeConn with
    | some _ => rw [hc] at h; exact absurd h (by simp)
    | none =>
      rw [hc] at h
      rw [Option.some.injEq] at h
      subst h
      refine ⟨rfl, rfl, by simp [bindSSHExit], ?_⟩
      rfl

/-- Witness for C3: binding session 7 on a fresh tunnel makes `getSSH`
return it immediately, and after the bind returns a fresh `getSSH`
blocks. -/
theorem bindSSH_latch_rearm_witness :
    getSSH ⟨some 7, 0⟩ false = .immediate (some 7) ∧
      (bindSSHExit ⟨some 7, 0⟩).activeConn = none ∧
      0 < (bindSSHExit ⟨some 7, 0⟩).latch ∧
      getSSH (bindSSHExit ⟨some 7, 0⟩) false = .blocked :=
  (bindSSH_latch_rearm tunnelNew 7).2 ⟨some 7, 0⟩ rfl

/-- C10: a `getSSH` call whose context is already done returns `nil`
immediately, even when an active session is stored, because the
cancellation check precedes the session lookup. -/
theorem getSSH_cancelled_before_lookup (st : TunnelSt) :
    getSSH st true = .immediate none := rfl

/-! ### Keepalive jitter (`share/tunnel`, `Tunnel.keepAliveLoop`) -/

/-- `jitterPercent := 0.30` in `keepAliveLoop`. -/
def jitterPercent : ℚ := 30 / 100

/-- Realized sleep of one keepalive iteration with configured interval `K`
and `u` the value returned by the `rng.Float64()` call of that iteration:
`actualDuration = K + (u*2 - 1) * (K * jitterPercent)`, clamped from below
to `minDuration = 0.1 * K`. Durations are modelled over `ℚ` (the
nanosecond truncation of `time.Duration` is below the granularity of the
claim). -/
def keepAliveDuration (K u : ℚ) : ℚ :=
  if K + (u * 2 - 1) * (K * jitterPercent) < K * (1 / 10) then K * (1 / 10)
  else K + (u * 2 - 1) * (K * jitterPercent)

/-- The sleep sequence of one `keepAliveLoop` invocation: the loop creates
its own generator (`rng := rand.New(rand.NewSource(time.Now().UnixNano()))`)
at entry, so the whole sequence is a function of the output stream `rng` of
that invocation alone, never of state shared with another session. -/
def keepAliveDurations (K : ℚ) (rng : Nat → ℚ) (n : Nat) : ℚ :=
  keepAliveDuration K (rng n)

/-- C5: with interval `K > 0` and any per-invocation generator stream with
values in `[0,1)`, every realized keepalive sleep lies within
`[K*(1 - jitter), K*(1 + jitter)]` and never below the lower clamp
`0.1*K`. -/
theorem keepalive_jitter_bounds (K : ℚ) (rng : Nat → ℚ) (hK : 0 < K)
    (hrng : ∀ n, 0 ≤ rng n ∧ rng n < 1) (n : Nat) :
    K * (1 - jitterPercent) ≤ keepAliveDurations K rng n ∧
    keepAliveDurations K rng n ≤ K * (1 + jitterPercent) ∧
    K * (1 / 10) ≤ keepAliveDurations K rng n := by
  obtain ⟨hu0, hu1⟩ := hrng n
  unfold keepAliveDurations keepAliveDuration jitterPercent
  have hKn : (0 : ℚ) ≤ K := le_of_lt hK
  have h1 : K * (1 - 30 / 100) ≤ K + (rng n * 2 - 1) * (K * (30 / 100)) := by
    nlinarith [mul_nonneg hKn hu0]
  have h2 : K + (rng n * 2 - 1) * (K * (30 / 100)) ≤ K * (1 + 30 / 100) := by
    nlinarith [mul_nonneg hKn (le_of_lt (sub_pos.mpr hu1))]
  have h3 : K * (1 / 10) ≤ K + (rng n * 2 - 1) * (K * (30 / 100)) := by
    nlinarith [mul_nonneg hKn hu0]
  rw [if_neg (not_lt.mpr h3)]
  exact ⟨h1, h2, h3⟩

/-- Witness for C5: `K = 100` and a generator stream constantly `1/2`
realize a sleep of `100`, inside all three bounds. -/
theorem keepalive_jitter_bounds_witness :
    (100 : ℚ) * (1 - jitterPercent) ≤ keepAliveDurations 100 (fun _ => 1/2) 0 ∧
    keepAliveDurations 100 (fun _ => 1/2) 0 ≤ (100 : ℚ) * (1 + jitterPercent) ∧
    (100 : ℚ) * (1 / 10) ≤ keepAliveDurations 100 (fun _ => 1/2) 0 :=
  keepalive_jitter_bounds 100 (fun _ => 1/2) (by norm_num)
    (fun _ => by norm_num) 0

/-! ### Client supervisor backoff (`client/client_connect.go`,
`connectionLoop` and `connectionOnce`) -/

/-- Hard ceiling of the supervisor sleep: ten minutes (in seconds). -/
def hardCeiling : ℚ := 600

/-- Probe window: five minutes without a success (in seconds). -/
def probeWindow : ℚ := 300

/-- Probe value the adaptive term is set to: five seconds. -/
def probeBackoff : ℚ := 5

/-- Consecutive-failures modifier: when `consecutiveFailures > 3`, the
adaptive term becomes `baseDuration * (consecutiveFailures / 3)` (integer
division), itself clamped to ten minutes; otherwise the adaptive term
carried over from the previous iteration is kept. -/
def adaptiveAfterFailures (base : ℚ) (failures : Nat) (prev : ℚ) : ℚ :=
  if 3 < failures then
    (if hardCeiling < base * ((failures / 3 : Nat) : ℚ) then hardCeiling
     else base * ((failures / 3 : Nat) : ℚ))
  else prev

/-- Network-quality modifier: when a success exists and is older than five
minutes, the adaptive term is reassigned to five seconds. -/
def adaptiveAfterProbe (ab : ℚ) (hasSuccess : Bool) (sinceSuccess : ℚ) : ℚ :=
  if hasSuccess = true ∧ probeWindow < sinceSuccess then probeBackoff else ab

/-- `finalBackoff := baseDuration + adaptiveBackoff`, clamped to ten
minutes. -/
def finalBackoff (base ab : ℚ) : ℚ :=
  if hardCeiling < base + ab then hardCeiling else base + ab

/-- The sleep of one `connectionLoop` iteration, as a function of
`b.Duration()` (in seconds), `consecutiveFailures`, the adaptive term
carried from the previous iteration, and the last-success information. -/
def connectionLoopSleep (base : ℚ) (failures : Nat) (prev : ℚ)
    (hasSuccess : Bool) (sinceSuccess : ℚ) : ℚ :=
  finalBackoff base
    (adaptiveAfterProbe (adaptiveAfterFailures base failures prev)
      hasSuccess sinceSuccess)

lemma finalBackoff_eq_min (base ab : ℚ) :
    finalBackoff base ab = min (base + ab) hardCeiling := by
  unfold finalBackoff
  rcases lt_or_le hardCeiling (base + ab) with h | h
  · rw [if_pos h, min_eq_right h.le]
  · rw [if_neg (not_lt.mpr h), min_eq_left h]

/-- C6 counterexample: with the last success 301 s old, a base of 480 s
(and ten consecutive failures) the realized sleep is 485 s — the sleep is
not capped at the small probe value and still grows with the exponential
base (480 s yields 485 s, 240 s yields 245 s). -/
theorem connectionLoop_probe_not_capping :
    probeWindow < 301 ∧
    connectionLoopSleep 480 10 0 true 301 = 485 ∧
    ¬ connectionLoopSleep 480 10 0 true 301 ≤ probeBackoff ∧
    connectionLoopSleep 240 10 0 true 301 = 245 := by
  norm_num [connectionLoopSleep, adaptiveAfterFailures, adaptiveAfterProbe,
    finalBackoff, hardCeiling, probeWindow, probeBackoff]

/-- C6 (amended): the sleep equals `min(base + adaptive, hardCeiling)` and
so never exceeds the ten-minute ceiling; and whenever the most recent
success is older than the probe window, the adaptive term — not the whole
sleep — is set to the probe value, so the sleep is
`min(base + 5s, ceiling)` and still grows with the exponential base. -/
theorem connectionLoop_sleep_ceiling (base : ℚ) (failures : Nat) (prev : ℚ)
    (hasSuccess : Bool) (sinceSuccess : ℚ) :
    connectionLoopSleep base failures prev hasSuccess sinceSuccess =
      min (base +
        adaptiveAfterProbe (adaptiveAfterFailures base failures prev)
          hasSuccess sinceSuccess) hardCeiling ∧
    connectionLoopSleep base failures prev hasSuccess sinceSuccess ≤
      hardCeiling ∧
    (hasSuccess = true → probeWindow < sinceSuccess →
      adaptiveAfterProbe (adaptiveAfterFailures base failures prev)
          hasSuccess sinceSuccess = probeBackoff ∧
      connectionLoopSleep base failures prev hasSuccess sinceSuccess =
        min (base + probeBackoff) hardCeiling) := by
  refine ⟨finalBackoff_eq_min base _, ?_, ?_⟩
  · rw [connectionLoopSleep, finalBackoff_eq_min]
    exact min_le_right _ _
  · intro hs hw
    have hp : adaptiveAfterProbe (adaptiveAfterFailures base failures prev)
        hasSuccess sinceSuccess = probeBackoff := by
      unfold adaptiveAfterProbe
      rw [if_pos ⟨hs, hw⟩]
    refine ⟨hp, ?_⟩
    rw [connectionLoopSleep, hp, finalBackoff_eq_min]

/-- Witness for C6 (amended): at base 480 s, ten failures and a 301 s old
success, the adaptive term is the probe value and the sleep is
`min(480 + 5, 600) = 485`. -/
theorem connectionLoop_sleep_ceiling_witness :
    adaptiveAfterProbe (adaptiveAfterFailures 480 10 0) true 301 =
        probeBackoff ∧
      connectionLoopSleep 480 10 0 true 301 = min (480 + probeBackoff)
        hardCeiling :=
  (connectionLoop_sleep_ceiling 480 10 0 true 301).2.2 rfl (by norm_num
    [probeWindow])

/-- Stability threshold of `connectionOnce`: five seconds from `t0` (taken
just before the config request is sent). -/
def stabilityThreshold : ℚ := 5

/-- Outcome-relevant features of one `connectionOnce` call: which of the
early-return paths was taken, and the value of `time.Since(t0)` when
`BindSSH` returned. -/
structure AttemptEnv where
  ctxDone : Bool
  dialErr : Bool
  sshErr : Bool
  configSendErr : Bool
  configRejected : Bool
  bindElapsed : ℚ

/-- The `connected` result of `connectionOnce`: every early return path
(context done, dial error, ssh handshake error, config send error, config
rejected) yields `false`; only after `BindSSH` returns is it
`time.Since(t0) > 5s`. -/
def connectionOnceConnected (env : AttemptEnv) : Bool :=
  if env.ctxDone then false
  else if env.dialErr then false
  else if env.sshErr then false
  else if env.configSendErr then false
  else if env.configRejected then false
  else decide (stabilityThreshold < env.bindElapsed)

/-- Supervisor backoff state across `connectionLoop` iterations. -/
structure BackoffSt where
  attempt : Nat
  failures : Nat
  adaptive : ℚ
  hasSuccess : Bool
deriving DecidableEq

/-- The state update at the top of each `connectionLoop` iteration:
`connected` resets the exponential counter (`b.Reset()`), the
consecutive-failure counter and the adaptive term, and records the
success; otherwise `consecutiveFailures++`. -/
def connectionLoopUpdate (st : BackoffSt) (connected : Bool) : BackoffSt :=
  if connected then
    { attempt := 0, failures := 0, adaptive := 0, hasSuccess := true }
  else { st with failures := st.failures + 1 }

/-- C7: an attempt counts as connected exactly when no early return path
was taken and the measured duration exceeded the stability threshold; and
exactly then the whole backoff state (exponential counter,
consecutive-failure counter, adaptive term) is reset to zero, while a
non-connected attempt increments the consecutive-failure counter and
leaves the other backoff fields unchanged. -/
theorem connected_iff_stable_and_resets (env : AttemptEnv) (st : BackoffSt) :
    (connectionOnceConnected env = true ↔
      (env.ctxDone = false ∧ env.dialErr = false ∧ env.sshErr = false ∧
       env.configSendErr = false ∧ env.configRejected = false ∧
       stabilityThreshold < env.bindElapsed)) ∧
    (connectionOnceConnected env = true →
      connectionLoopUpdate st (connectionOnceConnected env) =
        ⟨0, 0, 0, true⟩) ∧
    (connectionOnceConnected env = false →
      (connectionLoopUpdate st (connectionOnceConnected env)).failures =
          st.failures + 1 ∧
      (connectionLoopUpdate st (connectionOnceConnected env)).attempt =
          st.attempt ∧
      (connectionLoopUpdate st (connectionOnceConnected env)).adaptive =
          st.adaptive) := by
  refine ⟨?_, ?_, ?_⟩
  · rcases env with ⟨cd, de, se, cse, cr, el⟩
    cases cd <;> cases de <;> cases se <;> cases cse <;> cases cr <;>
      simp [connectionOnceConnected]
  · intro h
    rw [h]
    rfl
  · intro h
    rw [h]
    exact ⟨rfl, rfl, rfl⟩

/-- Witness for C7: a clean attempt with 6 s of measured uptime resets the
backoff state; line two instantiates the non-connected case at a failing
dial. -/
theorem connected_iff_stable_and_resets_witness :
    connectionLoopUpdate ⟨4, 2, 7, false⟩
        (connectionOnceConnected ⟨false, false, false, false, false, 6⟩) =
      ⟨0, 0, 0, true⟩ ∧
    (connectionLoopUpdate ⟨4, 2, 7, false⟩
        (connectionOnceConnected ⟨false, true, false, false, false, 6⟩)).failures
      = 3 :=
  ⟨(connected_iff_stable_and_resets ⟨false, false, false, false, false, 6⟩
      ⟨4, 2, 7, false⟩).2.1 (by norm_num [connectionOnceConnected,
        stabilityThreshold]),
   ((connected_iff_stable_and_resets ⟨false, true, false, false, false, 6⟩
      ⟨4, 2, 7, false⟩).2.2 rfl).1⟩

/-! ### Protocol tag versus dial subprotocol (`share/version.go`,
`client/client_connect.go`) -/

/-- `ProtocolVersion` of chisel: incremented on backwards incompatible
changes to signify a protocol mismatch. -/
def ProtocolVersion : String := "chisel-v3"

/-- `MaskedWebSocketProtocol`: the masked WebSocket subprotocol used to
hide the chisel identity. -/
def MaskedWebSocketProtocol : String := "chat"

/-- The `Subprotocols` list the client dialer presents in
`connectionOnce` (`websocket.Dialer{ Subprotocols: ... }`). -/
def dialerSubprotocols : List String := [MaskedWebSocketProtocol]

/-- C8 counterexample: the upgrade request does not carry the protocol
version identifier; the subprotocol list presented by every client dial
does not contain `ProtocolVersion`. -/
theorem dialer_subprotocol_not_protocol_tag :
    ProtocolVersion ∉ dialerSubprotocols := by
  decide

/-- C8 (amended): every client dial presents exactly the masked
subprotocol `"chat"`, which differs from the protocol version identifier;
protocol verification is deferred to after the handshake. -/
theorem dialer_subprotocol_masked :
    dialerSubprotocols = [MaskedWebSocketProtocol] ∧
      MaskedWebSocketProtocol ≠ ProtocolVersion :=
  ⟨rfl, by decide⟩

end Chisel
